import Mathlib

/-!
Shallow embedding of the transaction security analysis pipeline of the
sentimentX backend (MultiversX smart-contract monitoring service), together
with proofs about its risk scoring, pattern detection, anomaly detection,
bounded transaction history, alert resolution and contract registry.

Conventions of the embedding:
* JavaScript `number` values (transaction values, means, variances) are
  modelled as exact rationals; the accepted precision loss of `Number(...)`
  parsing is outside the model.
* The z-score comparison `|x - mean| / stdDev > 3` of the source is encoded
  without square roots as `(x - mean)^2 > 9 * variance` (equivalent for
  `stdDev = sqrt variance > 0`); the `stdDev = 0` case is modelled after the
  IEEE-754 behaviour of the source: `(x - mean) / 0` is `±Infinity` (compares
  greater than 3) unless `x = mean`, where `0 / 0` is `NaN` (all comparisons
  false).
* JavaScript `Map` objects are modelled as insertion-ordered association
  lists (`mapGet` / `mapSet` / `mapHas` below), matching `Map.prototype.get`,
  `Map.prototype.set` (updating an existing key keeps its position, a new
  key is appended) and `Map.prototype.has`.
* Transaction `data` fields are taken after the base64-decoding step of
  `getTransactionData`, i.e. they hold the decoded payload.
-/

namespace SentimentX

/-- JavaScript `String.prototype.includes`: `sub` occurs contiguously in `s`. -/
def strIncludes (s sub : String) : Bool :=
  s.toList.tails.any (fun t => sub.toList.isPrefixOf t)

/-- JavaScript `String.prototype.toLowerCase` (character-wise lowering). -/
def strToLower (s : String) : String :=
  String.mk (s.data.map Char.toLower)

/-- Association-list model of a JavaScript `Map` keyed by strings. -/
abbrev JsMap (α : Type) := List (String × α)

/-- `Map.prototype.get` (returning `undefined` as `none`). -/
def mapGet {α : Type} : JsMap α → String → Option α
  | [], _ => none
  | (k, v) :: rest, key => if k = key then some v else mapGet rest key

/-- `Map.prototype.has`. -/
def mapHas {α : Type} (m : JsMap α) (k : String) : Bool :=
  (mapGet m k).isSome

/-- `Map.prototype.set`: update in place if the key exists, append otherwise. -/
def mapSet {α : Type} : JsMap α → String → α → JsMap α
  | [], key, v => [(key, v)]
  | (k, w) :: rest, key, v =>
    if k = key then (k, v) :: rest else (k, w) :: mapSet rest key v

/-- The severity union type of `VulnerabilityPattern` (pattern.model.ts). -/
inductive Severity where
  | low
  | medium
  | high
  | critical
deriving DecidableEq, Repr

/-- The `RiskLevel` union type of scoring.ts. -/
inductive RiskLevel where
  | none
  | low
  | medium
  | high
  | critical
  | unknown
deriving DecidableEq, Repr

/-- The `RiskScore` interface of scoring.ts. -/
structure RiskScore where
  score : Int
  level : RiskLevel
deriving DecidableEq, Repr

/-- A MultiversX transaction as consumed by the detectors: `value` is the
exact numeric value, `data` the decoded payload text. -/
structure Tx where
  hash : String
  sender : String
  receiver : String
  value : ℚ
  data : String
deriving DecidableEq, Repr

/-- The `VulnerabilityPattern` interface (models/pattern.model.ts). -/
structure VulnerabilityPattern where
  id : String
  name : String
  description : String
  severity : Severity
  category : String
  detector : Tx → Option String → Bool

/-- The literal text of a severity value. -/
def severityString : Severity → String
  | .low => "low"
  | .medium => "medium"
  | .high => "high"
  | .critical => "critical"

/-- `s.charAt(0).toUpperCase() + s.slice(1)` from `calculateRiskScore`. -/
def capitalizeFirst (s : String) : String :=
  match s.data with
  | [] => ""
  | c :: cs => String.mk (c.toUpper :: cs)

/-- The `severityWeights` table inside
`SecurityScoring.calculateSecurityScore` (scoring.ts), with the `|| 0`
fallback for unknown keys. -/
def securityScoringWeight (severity : String) : Int :=
  if severity = "Critical" then 30
  else if severity = "High" then 15
  else if severity = "Medium" then 7
  else if severity = "Low" then 3
  else 0

/-- `SecurityScoring.calculateSecurityScore` (scoring.ts): 100 minus the
summed severity penalties, floored at 0; 100 when there are no
vulnerabilities.  Arguments are the severity strings of the vulnerabilities. -/
def calculateSecurityScore (vulnSeverities : List String) : Int :=
  if vulnSeverities.isEmpty then 100
  else
    let totalPenalty := (vulnSeverities.map securityScoringWeight).sum
    max 0 (100 - totalPenalty)

/-- `ANOMALY_WEIGHT` (scoring.ts). -/
def ANOMALY_WEIGHT : Int := 20

/-- The level thresholds at the end of `calculateRiskScore` (scoring.ts). -/
def riskLevelOfScore (score : Int) : RiskLevel :=
  if score ≥ 75 then .critical
  else if score ≥ 50 then .high
  else if score ≥ 25 then .medium
  else if score > 0 then .low
  else .none

/-- `calculateRiskScore` (scoring.ts): capitalizes each matched pattern's
severity, delegates to `calculateSecurityScore`, subtracts `ANOMALY_WEIGHT`
(floored at 0) when an anomaly was detected, and classifies the result. -/
def calculateRiskScore (patterns : List VulnerabilityPattern) (isAnomaly : Bool) :
    RiskScore :=
  let vulnerabilities := patterns.map (fun p => capitalizeFirst (severityString p.severity))
  let base := calculateSecurityScore vulnerabilities
  let score := if isAnomaly then max 0 (base - ANOMALY_WEIGHT) else base
  { score := score, level := riskLevelOfScore score }

/-- The single stub entry of the local `knownPatterns` list in detector.ts:
its detector always answers `false`. -/
def reentrancyStubPattern : VulnerabilityPattern :=
  { id := "reentrancy"
    name := "Reentrancy"
    description := "Reentrancy attack pattern"
    severity := .critical
    category := ""
    detector := fun _ _ => false }

/-- The `knownPatterns` constant of detector.ts. -/
def knownPatterns : List VulnerabilityPattern := [reentrancyStubPattern]

/-- `SecurityDetector.detectKnownPatterns`: collect the patterns of
`knownPatterns` whose detector answers `true`. -/
def detectKnownPatterns (tx : Tx) (contractCode : Option String) :
    List VulnerabilityPattern :=
  knownPatterns.filter (fun p => p.detector tx contractCode)

/-- The per-contract transaction history map of `SecurityDetector`. -/
abbrev HistoryState := JsMap (List Tx)

/-- `MAX_HISTORY_SIZE` (detector.ts). -/
def MAX_HISTORY_SIZE : Nat := 1000

/-- The history list stored for an address (`get(...) || []`). -/
def histOf (st : HistoryState) (addr : String) : List Tx :=
  (mapGet st addr).getD []

/-- `SecurityDetector.updateTransactionHistory`: append the transaction to
its receiver's history, then drop the oldest entry if the bound is
exceeded. -/
def updateTransactionHistory (st : HistoryState) (tx : Tx) : HistoryState :=
  let addr := tx.receiver
  let history := histOf st addr
  let pushed := history ++ [tx]
  let bounded := if pushed.length > MAX_HISTORY_SIZE then pushed.tail else pushed
  mapSet st addr bounded

/-- `ss.mean`: arithmetic mean of a list of values. -/
def popMean (values : List ℚ) : ℚ :=
  values.sum / values.length

/-- The square of `ss.standardDeviation`: population variance (mean of the
squared deviations). -/
def popVariance (values : List ℚ) : ℚ :=
  ((values.map (fun v => (v - popMean values) ^ 2)).sum) / values.length

/-- `SecurityDetector.detectAnomalies` on the current history state (which,
at the call site inside `analyzeTransaction`, already contains the analyzed
transaction): answer `false` for histories shorter than 10, otherwise flag
the transaction when its z-score exceeds 3.  The comparison is encoded on
squares (see the file header); the `variance = 0` branch reproduces the
IEEE `Infinity` / `NaN` comparisons of the source. -/
def detectAnomalies (st : HistoryState) (tx : Tx) : Bool :=
  let contractHistory := histOf st tx.receiver
  if contractHistory.length < 10 then false
  else
    let values := contractHistory.map Tx.value
    let mean := popMean values
    let variance := popVariance values
    let currentValue := tx.value
    if variance = 0 then decide (currentValue ≠ mean)
    else decide ((currentValue - mean) ^ 2 > 9 * variance)

/-- The `DetectionResult` interface of detector.ts. -/
structure DetectionResult where
  transactionHash : String
  contractAddress : String
  isAnomaly : Bool
  matchedPatterns : List VulnerabilityPattern
  riskScore : RiskScore
  timestamp : Nat
  details : String

/-- `SecurityDetector.generateDetails` (numeric rendering of the mean uses
the rational printer in place of `toFixed(2)`). -/
def generateDetails (patterns : List VulnerabilityPattern) (isAnomaly : Bool)
    (st : HistoryState) (tx : Tx) : String :=
  let patternPart :=
    if patterns.isEmpty then ""
    else "Detected patterns:\n" ++
      String.join (patterns.map (fun p => "- " ++ p.name ++ ": " ++ p.description ++ "\n"))
  let details :=
    if isAnomaly then
      let values := (histOf st tx.receiver).map Tx.value
      patternPart ++ "Statistical anomaly detected:\n- Transaction value (" ++
        toString tx.value ++ ") significantly deviates from historical average (" ++
        toString (popMean values) ++ ")\n"
    else patternPart
  if details = "" then "No security issues detected." else details

/-- The body of `SecurityDetector.analyzeTransaction` (the `try` block):
update the receiver's history, collect pattern matches, run the anomaly
check against the updated history, score, and assemble the result. -/
def analyzeTransaction (st : HistoryState) (tx : Tx) (contractCode : Option String)
    (now : Nat) : DetectionResult × HistoryState :=
  let st' := updateTransactionHistory st tx
  let matchedPatterns := detectKnownPatterns tx contractCode
  let isAnomaly := detectAnomalies st' tx
  let riskScore := calculateRiskScore matchedPatterns isAnomaly
  ({ transactionHash := tx.hash
     contractAddress := tx.receiver
     isAnomaly := isAnomaly
     matchedPatterns := matchedPatterns
     riskScore := riskScore
     timestamp := now
     details := generateDetails matchedPatterns isAnomaly st' tx }, st')

/-- The degraded result built by the `catch` clause of `analyzeTransaction`. -/
def degradedResult (tx : Tx) (now : Nat) (msg : String) : DetectionResult :=
  { transactionHash := tx.hash
    contractAddress := tx.receiver
    isAnomaly := false
    matchedPatterns := []
    riskScore := { score := 0, level := .unknown }
    timestamp := now
    details := "Error analyzing transaction: " ++ msg }

/-- The `try`/`catch` wrapper of `analyzeTransaction`: the guarded body is
modelled as an `Except` value (`Except.error` being a raised exception), and
the catch clause substitutes the degraded result.  The wrapper is a total
function, so no exception ever escapes to the caller. -/
def analyzeTransactionCaught (tx : Tx) (now : Nat)
    (body : Except String DetectionResult) : DetectionResult :=
  match body with
  | .ok r => r
  | .error msg => degradedResult tx now msg

/-- `flashLoanKeywords` inside `FlashLoanDetector.checkForFlashLoanKeywords`. -/
def flashLoanKeywords : List String :=
  ["flash", "loan", "borrow", "lend", "liquidity", "swap", "arbitrage"]

/-- `FlashLoanDetector.checkForFlashLoanKeywords`. -/
def checkForFlashLoanKeywords (data : String) : Bool :=
  flashLoanKeywords.any (fun keyword => strIncludes (strToLower data) keyword)

/-- `FlashLoanDetector.checkForComplexData`: `data.split('@').length - 1`
counts the occurrences of `'@'` in `data`; more than 3 of them flag the
payload as complex. -/
def checkForComplexData (data : String) : Bool :=
  let functionCalls := data.toList.count '@'
  decide (functionCalls > 3)

/-- `priceManipulationKeywords` inside
`FlashLoanDetector.checkForPriceManipulation`. -/
def priceManipulationKeywords : List String :=
  ["price", "oracle", "swap", "exchange", "slippage", "rate", "pool"]

/-- `FlashLoanDetector.checkForPriceManipulation`: at least 3 of the listed
keywords occur in the lowercased payload. -/
def checkForPriceManipulation (data : String) : Bool :=
  let keywordCount :=
    priceManipulationKeywords.countP (fun keyword => strIncludes (strToLower data) keyword)
  decide (keywordCount ≥ 3)

/-- `FlashLoanDetector.checkUnsafePriceOracle`. -/
def checkUnsafePriceOracle (contractCode : String) : Bool :=
  (["getTokenPrice", "getExchangeRate", "calculatePrice", "price_oracle",
    "getPriceFromAmm", "get_price_from_pair"] : List String).any
    (fun source =>
      strIncludes contractCode source &&
      !(strIncludes contractCode "time_weighted") &&
      !(strIncludes contractCode "timeWeighted"))

/-- `FlashLoanDetector.checkMissingFlashLoanProtection`. -/
def checkMissingFlashLoanProtection (contractCode : String) : Bool :=
  (["liquidate", "borrow", "withdraw", "swap", "exchange"] : List String).any
      (fun f => strIncludes contractCode f) &&
  !((["flash_loan_protection", "flashLoanProtection", "time_window", "timeWindow",
      "block_number", "blockNumber"] : List String).any
      (fun p => strIncludes contractCode p))

/-- `FlashLoanDetector.checkInsufficientValidation`. -/
def checkInsufficientValidation (contractCode : String) : Bool :=
  (strIncludes contractCode "call_value" || strIncludes contractCode "callValue" ||
   strIncludes contractCode "input_values" || strIncludes contractCode "inputValues") &&
  !(strIncludes contractCode "require!" || strIncludes contractCode "assert!" ||
    strIncludes contractCode "verify!")

/-- `FlashLoanDetector.analyzeContractCode`. -/
def flashLoanAnalyzeContractCode (contractCode : String) : Bool :=
  checkUnsafePriceOracle contractCode ||
  checkMissingFlashLoanProtection contractCode ||
  checkInsufficientValidation contractCode

/-- The large-value threshold `100000000000000000000` of
`FlashLoanDetector.detectFlashLoanPattern`. -/
def FLASH_LOAN_VALUE_THRESHOLD : ℚ := 100000000000000000000

/-- `FlashLoanDetector.detectFlashLoanPattern`. -/
def detectFlashLoanPattern (tx : Tx) (contractCode : Option String) : Bool :=
  let value := tx.value
  let data := tx.data
  let hasFlashLoanKeywords := checkForFlashLoanKeywords data
  let hasComplexData := checkForComplexData data
  let hasPriceManipulation := checkForPriceManipulation data
  match contractCode with
  | some code =>
    flashLoanAnalyzeContractCode code ||
    (decide (value > FLASH_LOAN_VALUE_THRESHOLD) &&
     (hasFlashLoanKeywords || hasComplexData || hasPriceManipulation))
  | none =>
    decide (value > FLASH_LOAN_VALUE_THRESHOLD) &&
    (hasFlashLoanKeywords || hasComplexData || hasPriceManipulation)

/-- `adminFunctionKeywords` inside
`AccessControlDetector.checkForAdminFunction`. -/
def adminFunctionKeywords : List String :=
  ["set_owner", "setOwner", "change_owner", "changeOwner", "transfer_ownership",
   "transferOwnership", "set_admin", "setAdmin", "upgrade", "pause", "unpause",
   "withdraw", "emergency", "set_fee", "setFee", "update_config", "updateConfig"]

/-- `AccessControlDetector.checkForAdminFunction`: the payload mentions one of
the administrative function names. -/
def checkForAdminFunction (data : String) : Bool :=
  adminFunctionKeywords.any (fun keyword => strIncludes data keyword)

/-- The `Alert` record of alert.service.ts (the optional `metadata` bag is
not touched by any store operation and is omitted). -/
structure Alert where
  contractAddress : String
  transactionHash : String
  riskScore : RiskScore
  details : String
  timestamp : Nat
  patternIds : List String
  resolved : Bool
  resolutionNotes : Option String
deriving DecidableEq, Repr

/-- The in-memory alert map of `AlertService`. -/
abbrev AlertStore := JsMap Alert

/-- `AlertService.resolveAlert`: `null` for an absent id; otherwise set
`resolved` and overwrite `resolutionNotes`, storing the updated alert under
the same id.  Returns the resolved alert (if any) and the updated store. -/
def resolveAlert (store : AlertStore) (id : String) (resolutionNotes : Option String) :
    Option Alert × AlertStore :=
  match mapGet store id with
  | none => (none, store)
  | some alert =>
    let updated := { alert with resolved := true, resolutionNotes := resolutionNotes }
    (some updated, mapSet store id updated)

/-- The `Contract` entity (contract.entity.ts); `metadata` is a string map. -/
structure Contract where
  address : String
  name : Option String
  addedAt : Nat
  lastAnalyzedAt : Option Nat
  securityScore : Option Int
  isVerified : Bool
  alertCount : Nat
  highRiskAlerts : Nat
  tags : List String
  metadata : List (String × String)
deriving DecidableEq, Repr

/-- The in-memory contract map of `ContractService`. -/
abbrev ContractStore := JsMap Contract

/-- `ContractService.addContract`: return the existing record unchanged when
the address is already monitored, otherwise create a fresh record with the
source's defaults and store it. -/
def addContract (store : ContractStore) (address : String) (name : Option String)
    (now : Nat) : Contract × ContractStore :=
  match mapGet store address with
  | some contract => (contract, store)
  | none =>
    let contract : Contract :=
      { address := address
        name := name
        addedAt := now
        lastAnalyzedAt := none
        securityScore := none
        isVerified := false
        alertCount := 0
        highRiskAlerts := 0
        tags := []
        metadata := [] }
    (contract, mapSet store address contract)

/-! Claim-side definitions: these follow the wording of the specification
(not the source) and exist only to be compared against the source-derived
functions above. -/

/-- The severity weights the specification assigns to the transaction-level
scoring scheme (critical=25, high=15, medium=10, low=5). -/
def claimedSeverityWeight : Severity → Int
  | .critical => 25
  | .high => 15
  | .medium => 10
  | .low => 5

/-- The transaction-level risk score as the specification describes it: the
matched patterns' severity weights summed up from 0, plus a flat 20 when an
anomaly was flagged, capped at 100. -/
def claimedRiskScoreValue (patterns : List VulnerabilityPattern) (isAnomaly : Bool) :
    Int :=
  min 100
    ((patterns.map (fun p => claimedSeverityWeight p.severity)).sum +
      (if isAnomaly then 20 else 0))

/-- The flash-loan flag as the specification describes it: value strictly
above the threshold and (a flash-loan keyword, or at least 3 segments when
the payload is split at the `'@'` delimiter, or at least 3 distinct
price/oracle keywords). -/
def claimedFlashLoanFlag (tx : Tx) : Bool :=
  decide (tx.value > FLASH_LOAN_VALUE_THRESHOLD) &&
  (checkForFlashLoanKeywords tx.data ||
   decide (tx.data.toList.count '@' + 1 ≥ 3) ||
   checkForPriceManipulation tx.data)

/-! Concrete fixtures used by counterexamples and witnesses. -/

/-- Scenario A transaction: a `withdraw` call to a contract with no prior
history. -/
def withdrawTx : Tx :=
  { hash := "hash-a", sender := "erd1sender", receiver := "erd1contract",
    value := 0, data := "withdraw" }

/-- Scenario B transaction: value 2 * 10^20 with a flash-loan payload. -/
def scenarioBTx : Tx :=
  { hash := "hash-b", sender := "erd1sender", receiver := "erd1contract",
    value := 200000000000000000000, data := "flashloanborrowswap@arbitrage@pool" }

/-- A large-value transaction whose payload has exactly 3 `'@'`-separated
segments and no suspicious keyword. -/
def threeSegmentTx : Tx :=
  { hash := "hash-c", sender := "erd1sender", receiver := "erd1contract",
    value := 200000000000000000000, data := "a@b@c" }

/-- A baseline transaction with value 5 towards contract `"erd1c"`. -/
def quietTx : Tx :=
  { hash := "hash-q", sender := "erd1sender", receiver := "erd1c",
    value := 5, data := "" }

/-- A history state holding 9 prior copies of `quietTx` for its receiver. -/
def nineQuietState : HistoryState :=
  [("erd1c", List.replicate 9 quietTx)]

/-- A history state holding a full window of 1000 copies of `quietTx`. -/
def fullQuietState : HistoryState :=
  [("erd1c", List.replicate 1000 quietTx)]

/-- A sample alert used by the alert-store witnesses. -/
def sampleAlert : Alert :=
  { contractAddress := "erd1contract"
    transactionHash := "hash-a"
    riskScore := { score := 70, level := .high }
    details := "detected"
    timestamp := 100
    patternIds := ["reentrancy"]
    resolved := false
    resolutionNotes := none }

/-- An alert store holding `sampleAlert` under id `"alert-100-1"`. -/
def sampleAlertStore : AlertStore := [("alert-100-1", sampleAlert)]

/-- A sequence of `analyzeTransaction` calls run against the initially empty
history map of a fresh `SecurityDetector`. -/
def runAnalyzer (calls : List (Tx × Option String)) : HistoryState :=
  calls.foldl (fun st c => (analyzeTransaction st c.1 c.2 0).2) []

/-! ## Helper lemmas about the JavaScript map model -/

theorem mapGet_mapSet_self {α : Type} (m : JsMap α) (k : String) (v : α) :
    mapGet (mapSet m k v) k = some v := by
  induction m with
  | nil => simp [mapSet, mapGet]
  | cons p rest ih =>
    obtain ⟨k', w⟩ := p
    by_cases h : k' = k
    · simp [mapSet, h, mapGet]
    · simp [mapSet, h, mapGet, ih]

theorem mapGet_mapSet_ne {α : Type} (m : JsMap α) {k k' : String} (v : α)
    (h : k ≠ k') : mapGet (mapSet m k v) k' = mapGet m k' := by
  induction m with
  | nil => simp [mapSet, mapGet, h]
  | cons p rest ih =>
    obtain ⟨a, w⟩ := p
    by_cases ha : a = k
    · subst ha
      simp [mapSet, mapGet, h]
    · simp [mapSet, ha, mapGet, ih]

theorem keys_mapSet_of_get_eq_some {α : Type} (m : JsMap α) {k : String} {a : α}
    (h : mapGet m k = some a) (v : α) :
    (mapSet m k v).map Prod.fst = m.map Prod.fst := by
  induction m with
  | nil => simp [mapGet] at h
  | cons p rest ih =>
    obtain ⟨k', w⟩ := p
    by_cases hk : k' = k
    · simp [mapSet, hk]
    · rw [mapGet, if_neg hk] at h
      simp [mapSet, hk, ih h]

/-! ## Helper lemmas about substring containment -/

theorem strIncludes_iff (s sub : String) :
    strIncludes s sub = true ↔ sub.toList <:+: s.toList := by
  unfold strIncludes
  rw [List.any_eq_true]
  constructor
  · rintro ⟨t, ht, hp⟩
    rw [List.mem_tails] at ht
    rw [ List.isPrefixOf_iff_prefix] at hp
    exact List.infix_iff_prefix_suffix.2 ⟨t, hp, ht⟩
  · intro h
    obtain ⟨t, hp, ht⟩ := List.infix_iff_prefix_suffix.1 h
    exact ⟨t, (List.mem_tails _ _).2 ht, List.isPrefixOf_iff_prefix.2 hp⟩

/-! ## Helper lemmas about means and variances

The anomaly check compares a member of a value list against the mean and
population variance of that same list.  The key mathematical fact is the
Samuelson-style bound: a member of an `n`-element list deviates from the
mean by at most `sqrt (n - 1)` population standard deviations, so for the
10-element window the z-score never strictly exceeds 3. -/

theorem sum_map_sub_const (l : List ℚ) (c : ℚ) :
    (l.map (fun v => v - c)).sum = l.sum - (l.length : ℚ) * c := by
  induction l with
  | nil => simp
  | cons a t ih =>
    simp only [List.map_cons, List.sum_cons, List.length_cons, ih]
    push_cast
    ring

theorem sum_sq_nonneg (l : List ℚ) : 0 ≤ (l.map (fun x => x ^ 2)).sum := by
  apply List.sum_nonneg
  intro x hx
  obtain ⟨y, _, rfl⟩ := List.mem_map.1 hx
  positivity

/-- Cauchy–Schwarz for lists: the square of a sum is at most the length
times the sum of squares. -/
theorem sq_sum_le_length_mul_sum_sq (l : List ℚ) :
    l.sum ^ 2 ≤ (l.length : ℚ) * (l.map (fun x => x ^ 2)).sum := by
  induction l with
  | nil => simp
  | cons a t ih =>
    have hq : 0 ≤ (t.map (fun x => x ^ 2)).sum := sum_sq_nonneg t
    rw [List.sum_cons, List.map_cons, List.sum_cons, List.length_cons]
    push_cast
    set n : ℚ := (t.length : ℚ) with hn
    set s : ℚ := t.sum with hs
    set q : ℚ := (t.map (fun x => x ^ 2)).sum with hqdef
    rcases Nat.eq_zero_or_pos t.length with h0 | hpos
    · have hn0 : n = 0 := by rw [hn, h0]; norm_num
      rw [hn0] at ih
      have hs0 : s = 0 := by nlinarith [sq_nonneg s, ih]
      rw [hn0, hs0]
      nlinarith [hq]
    · have hn1 : (1 : ℚ) ≤ n := by
        rw [hn]
        exact_mod_cast hpos
      have key : n * ((n + 1) * (a ^ 2 + q) - (a + s) ^ 2)
          = (n * a - s) ^ 2 + (n + 1) * (n * q - s ^ 2) := by ring
      have h2 : 0 ≤ (n + 1) * (n * q - s ^ 2) :=
        mul_nonneg (by linarith) (by linarith [ih])
      have h3 : 0 ≤ n * ((n + 1) * (a ^ 2 + q) - (a + s) ^ 2) := by
        rw [key]
        nlinarith [sq_nonneg (n * a - s)]
      nlinarith [h3, hn1]

/-- Samuelson-style bound: a member of a list deviates from the mean by at
most `(length - 1)` times the population variance, in squared terms. -/
theorem member_dev_sq_le (l : List ℚ) (x : ℚ) (hx : x ∈ l) :
    (x - popMean l) ^ 2 ≤ ((l.length : ℚ) - 1) * popVariance l := by
  classical
  have hperm : l.Perm (x :: l.erase x) := List.perm_cons_erase hx
  set μ := popMean l with hμ
  set r := l.erase x with hr
  have hlen : l.length = r.length + 1 := by
    simpa [hr] using hperm.length_eq
  have hnpos : (0 : ℚ) < (l.length : ℚ) := by
    exact_mod_cast List.length_pos.2 (List.ne_nil_of_mem hx)
  -- the deviations over the whole list sum to zero
  have hsum0 : ((l.map (fun v => v - μ)).sum) = 0 := by
    rw [sum_map_sub_const, hμ]
    unfold popMean
    field_simp
  have hsum_split : ((l.map (fun v => v - μ)).sum)
      = (x - μ) + ((r.map (fun v => v - μ)).sum) := by
    rw [(hperm.map (fun v => v - μ)).sum_eq]
    simp
  have hA : (x - μ) = -((r.map (fun v => v - μ)).sum) := by
    rw [hsum_split] at hsum0
    linarith
  have hsq_split : ((l.map (fun v => (v - μ) ^ 2)).sum)
      = (x - μ) ^ 2 + ((r.map (fun v => (v - μ) ^ 2)).sum) := by
    rw [(hperm.map (fun v => (v - μ) ^ 2)).sum_eq]
    simp
  set S : ℚ := (r.map (fun v => v - μ)).sum with hS
  set Q : ℚ := (r.map (fun v => (v - μ) ^ 2)).sum with hQ
  set T : ℚ := (l.map (fun v => (v - μ) ^ 2)).sum with hT
  have hcs : S ^ 2 ≤ (r.length : ℚ) * Q := by
    have := sq_sum_le_length_mul_sum_sq (r.map (fun v => v - μ))
    simpa [hS, hQ, List.map_map, Function.comp] using this
  set m : ℚ := (r.length : ℚ) with hm
  have hm0 : (0 : ℚ) ≤ m := by rw [hm]; exact_mod_cast Nat.zero_le _
  have hA2 : (x - μ) ^ 2 ≤ m * Q := by
    have : (x - μ) ^ 2 = S ^ 2 := by rw [hA]; ring
    rw [this]
    exact hcs
  have hvar : popVariance l = T / (l.length : ℚ) := by
    rw [hT]
    unfold popVariance
    rw [hμ]
  have hQT : Q = T - (x - μ) ^ 2 := by
    rw [hsq_split]
    ring
  have hone : ((l.length : ℚ)) = m + 1 := by
    rw [hm, hlen]
    push_cast
    ring
  rw [hvar, hone]
  have hmpos : (0 : ℚ) < m + 1 := by linarith
  rw [show m + 1 - 1 = m from by ring, ← mul_div_assoc, le_div_iff₀ hmpos]
  have hexp : m * Q = m * T - m * (x - μ) ^ 2 := by rw [hQT]; ring
  nlinarith [hA2, hexp]

/-- If the population variance of a list is zero, every member equals the
mean. -/
theorem member_eq_mean_of_variance_eq_zero (l : List ℚ) (x : ℚ) (hx : x ∈ l)
    (h0 : popVariance l = 0) : x = popMean l := by
  have hb := member_dev_sq_le l x hx
  rw [h0, mul_zero] at hb
  have h2 : (x - popMean l) ^ 2 = 0 := le_antisymm hb (sq_nonneg _)
  have h3 : x - popMean l = 0 := by
    exact pow_eq_zero_iff (two_ne_zero) |>.1 h2
  linarith

/-! ## Helper lemmas about the orchestrator state -/

theorem histOf_updateTransactionHistory_self (st : HistoryState) (tx : Tx) :
    histOf (updateTransactionHistory st tx) tx.receiver =
      (if (histOf st tx.receiver ++ [tx]).length > MAX_HISTORY_SIZE
       then (histOf st tx.receiver ++ [tx]).tail
       else histOf st tx.receiver ++ [tx]) := by
  unfold updateTransactionHistory
  unfold histOf
  rw [mapGet_mapSet_self]
  rfl

theorem histOf_updateTransactionHistory_ne (st : HistoryState) (tx : Tx)
    {a : String} (ha : a ≠ tx.receiver) :
    histOf (updateTransactionHistory st tx) a = histOf st a := by
  unfold updateTransactionHistory
  unfold histOf
  rw [mapGet_mapSet_ne _ _ (Ne.symm ha)]

theorem mem_histOf_updateTransactionHistory_self (st : HistoryState) (tx : Tx) :
    tx ∈ histOf (updateTransactionHistory st tx) tx.receiver := by
  rw [histOf_updateTransactionHistory_self]
  split
  · next hgt =>
    cases h : histOf st tx.receiver with
    | nil =>
      rw [h] at hgt
      simp [MAX_HISTORY_SIZE] at hgt
    | cons y ys => simp
  · exact List.mem_append_right _ (List.mem_singleton_self tx)

theorem length_histOf_updateTransactionHistory_le (st : HistoryState) (tx : Tx)
    (hbound : ∀ a, (histOf st a).length ≤ MAX_HISTORY_SIZE) (a : String) :
    (histOf (updateTransactionHistory st tx) a).length ≤ MAX_HISTORY_SIZE := by
  by_cases ha : a = tx.receiver
  · subst ha
    rw [histOf_updateTransactionHistory_self]
    have h := hbound tx.receiver
    split
    · next hgt =>
      simp only [List.length_tail, List.length_append, List.length_singleton]
      omega
    · next hle => omega
  · rw [histOf_updateTransactionHistory_ne st tx ha]
    exact hbound a

theorem isAnomaly_analyzeTransaction (st : HistoryState) (tx : Tx)
    (contractCode : Option String) (now : Nat) :
    ((analyzeTransaction st tx contractCode now).1).isAnomaly
      = detectAnomalies (updateTransactionHistory st tx) tx := rfl

theorem snd_analyzeTransaction (st : HistoryState) (tx : Tx)
    (contractCode : Option String) (now : Nat) :
    (analyzeTransaction st tx contractCode now).2
      = updateTransactionHistory st tx := rfl

/-- The anomaly check never fires on a window of at most 10 values that
contains the analyzed transaction: the gate handles windows shorter than
10, and on a 10-element window the Samuelson bound caps the z-score at
exactly 3, below the strict `> 3` threshold. -/
theorem detectAnomalies_eq_false_of_mem (st : HistoryState) (tx : Tx)
    (hmem : tx ∈ histOf st tx.receiver)
    (hlen : (histOf st tx.receiver).length ≤ 10) :
    detectAnomalies st tx = false := by
  unfold detectAnomalies
  by_cases hgate : (histOf st tx.receiver).length < 10
  · simp [hgate]
  · have hlen10 : (histOf st tx.receiver).length = 10 :=
      le_antisymm hlen (Nat.not_lt.1 hgate)
    have hxmem : tx.value ∈ (histOf st tx.receiver).map Tx.value :=
      List.mem_map_of_mem Tx.value hmem
    by_cases h0 : popVariance ((histOf st tx.receiver).map Tx.value) = 0
    · have hx := member_eq_mean_of_variance_eq_zero _ _ hxmem h0
      simp [hgate, h0, hx]
    · have hb := member_dev_sq_le ((histOf st tx.receiver).map Tx.value) tx.value hxmem
      rw [List.length_map, hlen10] at hb
      norm_num at hb
      simp only [hgate, if_false, h0]
      rw [decide_eq_false_iff_not]
      intro hcontra
      linarith

/-- The anomaly check never fires when the window containing the analyzed
transaction has variance zero: the transaction's value then equals the
mean, so the source computes `0 / 0 = NaN` and `NaN > 3` is false. -/
theorem detectAnomalies_eq_false_of_variance_eq_zero (st : HistoryState) (tx : Tx)
    (hmem : tx ∈ histOf st tx.receiver)
    (h0 : popVariance ((histOf st tx.receiver).map Tx.value) = 0) :
    detectAnomalies st tx = false := by
  unfold detectAnomalies
  by_cases hgate : (histOf st tx.receiver).length < 10
  · simp [hgate]
  · have hxmem : tx.value ∈ (histOf st tx.receiver).map Tx.value :=
      List.mem_map_of_mem Tx.value hmem
    have hx := member_eq_mean_of_variance_eq_zero _ _ hxmem h0
    simp [hgate, h0, hx]

theorem runAnalyzer_historyBounded (calls : List (Tx × Option String)) (addr : String) :
    (histOf (runAnalyzer calls) addr).length ≤ MAX_HISTORY_SIZE := by
  have main : ∀ (cs : List (Tx × Option String)) (st : HistoryState),
      (∀ a, (histOf st a).length ≤ MAX_HISTORY_SIZE) →
      ∀ a, (histOf (cs.foldl (fun s c => (analyzeTransaction s c.1 c.2 0).2) st) a).length
            ≤ MAX_HISTORY_SIZE := by
    intro cs
    induction cs with
    | nil =>
      intro st h a
      simpa using h a
    | cons c rest ih =>
      intro st h a
      rw [List.foldl_cons]
      exact ih _ (fun a' => by
        rw [snd_analyzeTransaction]
        exact length_histOf_updateTransactionHistory_le st c.1 h a') a
  exact main calls [] (fun a => by simp [histOf, mapGet]) addr

/-! ## Helper lemmas about the flash-loan checks -/

theorem checkForFlashLoanKeywords_iff (data : String) :
    checkForFlashLoanKeywords data = true ↔
      ∃ k ∈ flashLoanKeywords, k.toList <:+: (strToLower data).toList := by
  unfold checkForFlashLoanKeywords
  simp only [List.any_eq_true, strIncludes_iff]

theorem checkForComplexData_iff (data : String) :
    checkForComplexData data = true ↔ 3 < data.toList.count '@' := by
  unfold checkForComplexData
  simp

theorem checkForPriceManipulation_iff (data : String) :
    checkForPriceManipulation data = true ↔
      3 ≤ priceManipulationKeywords.countP
            (fun k => decide (k.toList <:+: (strToLower data).toList)) := by
  have hc : priceManipulationKeywords.countP (fun k => strIncludes (strToLower data) k)
      = priceManipulationKeywords.countP
          (fun k => decide (k.toList <:+: (strToLower data).toList)) :=
    List.countP_congr (fun k _ => by simp [strIncludes_iff])
  unfold checkForPriceManipulation
  rw [hc]
  simp [ge_iff_le]

/-- `addContract` on a key already bound in the store returns the bound
record and leaves the store untouched. -/
theorem addContract_of_get_eq_some (s : ContractStore) (address : String)
    (name : Option String) (now : Nat) {c : Contract}
    (h : mapGet s address = some c) :
    addContract s address name now = (c, s) := by
  unfold addContract
  rw [h]

/-- After any `addContract` call, the returned record is bound to the
address in the returned store. -/
theorem mapGet_addContract (store : ContractStore) (address : String)
    (name : Option String) (now : Nat) :
    mapGet (addContract store address name now).2 address
      = some (addContract store address name now).1 := by
  unfold addContract
  cases h : mapGet store address with
  | some c => simp [h]
  | none => simp [h, mapGet_mapSet_self]

/-! ## Claim theorems -/

/-- C1: the claim says `calculateRiskScore` sums the matched patterns'
severity weights (critical=25, high=15, medium=10, low=5) up from 0, adds a
flat 20 for an anomaly and caps at 100.  The source instead delegates to the
penalty-down scheme of `calculateSecurityScore` (100 minus Critical=30 /
High=15 / Medium=7 / Low=3, floored at 0) and an anomaly subtracts 20.  At
the empty pattern list the code yields `{score := 100, level := critical}`
where the claimed scheme yields 0, and at the single critical stub pattern
the code yields `{score := 70, level := high}` where the claimed scheme
yields 25. -/
theorem c1_scoring_divergence :
    calculateRiskScore [] false = { score := 100, level := RiskLevel.critical } ∧
    claimedRiskScoreValue [] false = 0 ∧
    calculateRiskScore [reentrancyStubPattern] false
        = { score := 70, level := RiskLevel.high } ∧
    claimedRiskScoreValue [reentrancyStubPattern] false = 25 := by
  refine ⟨by decide, by decide, by decide, by decide⟩

/-- C2: the claim says a `withdraw` transaction towards a cold contract is
matched by the access-control pattern with score 15 and level low.  The
orchestrator's `detectKnownPatterns` only iterates the stub `knownPatterns`
list of detector.ts, whose sole detector always answers false, so the match
list is empty and the empty list scores `{100, critical}` under the
penalty-down scheme; meanwhile the (injected but unused) access-control
detector's transaction check would indeed flag the payload `"withdraw"`. -/
theorem c2_scenario_a_divergence :
    (analyzeTransaction [] withdrawTx none 0).1.matchedPatterns = [] ∧
    (analyzeTransaction [] withdrawTx none 0).1.isAnomaly = false ∧
    (analyzeTransaction [] withdrawTx none 0).1.riskScore
        = { score := 100, level := RiskLevel.critical } ∧
    checkForAdminFunction "withdraw" = true := by
  refine ⟨rfl, rfl, rfl, by decide⟩

/-- C3: for the empty pattern list with no anomaly, `calculateRiskScore`
returns the maximum score 100 and the level `critical`: an analysis with no
findings at all receives the highest possible risk classification. -/
theorem c3_empty_patterns_max_score :
    calculateRiskScore [] false = { score := 100, level := RiskLevel.critical } := by
  decide

/-- C4: when the receiver address has fewer than 10 prior transactions in
the orchestrator's history, `analyzeTransaction` reports no anomaly,
whatever the transaction's value: the history including the fresh
transaction has at most 10 entries, windows below 10 are gated off, and on
a 10-entry window containing the analyzed value the z-score is capped at 3
by the Samuelson bound, below the strict threshold. -/
theorem c4_cold_start_no_anomaly (st : HistoryState) (tx : Tx)
    (contractCode : Option String) (now : Nat)
    (h : (histOf st tx.receiver).length < 10) :
    ((analyzeTransaction st tx contractCode now).1).isAnomaly = false := by
  rw [isAnomaly_analyzeTransaction]
  have hnotfull : ¬ (histOf st tx.receiver ++ [tx]).length > MAX_HISTORY_SIZE := by
    simp only [List.length_append, List.length_singleton, MAX_HISTORY_SIZE]
    omega
  have hself : histOf (updateTransactionHistory st tx) tx.receiver
      = histOf st tx.receiver ++ [tx] := by
    rw [histOf_updateTransactionHistory_self, if_neg hnotfull]
  apply detectAnomalies_eq_false_of_mem
  · rw [hself]
    exact List.mem_append_right _ (List.mem_singleton_self tx)
  · rw [hself]
    simp only [List.length_append, List.length_singleton]
    omega

/-- C4 witness: analyzing a transaction against the empty history flags no
anomaly. -/
theorem c4_cold_start_no_anomaly_witness :
    (histOf ([] : HistoryState) quietTx.receiver).length < 10 ∧
    ((analyzeTransaction [] quietTx none 0).1).isAnomaly = false :=
  ⟨by decide, c4_cold_start_no_anomaly [] quietTx none 0 (by decide)⟩

/-- C5: when the window the anomaly check computes its statistics over (the
receiver's history, which at check time contains the analyzed transaction)
has at least 10 entries and standard deviation zero, no anomaly is
reported: all values of a zero-variance window coincide, so the analyzed
value equals the mean and the source's `0 / 0 = NaN` comparison is false. -/
theorem c5_zero_stddev_no_anomaly (st : HistoryState) (tx : Tx)
    (contractCode : Option String) (now : Nat)
    (hlen : 10 ≤ (histOf (updateTransactionHistory st tx) tx.receiver).length)
    (hvar : popVariance
        ((histOf (updateTransactionHistory st tx) tx.receiver).map Tx.value) = 0) :
    ((analyzeTransaction st tx contractCode now).1).isAnomaly = false := by
  rw [isAnomaly_analyzeTransaction]
  exact detectAnomalies_eq_false_of_variance_eq_zero _ _
    (mem_histOf_updateTransactionHistory_self st tx) hvar

/-- C5 witness: a tenth identical transaction on a stable 9-entry history
gives a 10-entry zero-variance window and no anomaly. -/
theorem c5_zero_stddev_no_anomaly_witness :
    10 ≤ (histOf (updateTransactionHistory nineQuietState quietTx) quietTx.receiver).length ∧
    popVariance
        ((histOf (updateTransactionHistory nineQuietState quietTx) quietTx.receiver).map
          Tx.value) = 0 ∧
    ((analyzeTransaction nineQuietState quietTx none 0).1).isAnomaly = false := by
  have hh : (histOf (updateTransactionHistory nineQuietState quietTx)
        quietTx.receiver).map Tx.value = List.replicate 10 (5 : ℚ) := rfl
  have hlen : (histOf (updateTransactionHistory nineQuietState quietTx)
        quietTx.receiver).length = 10 := by
    have := congrArg List.length hh
    simpa using this
  have hvar : popVariance
      ((histOf (updateTransactionHistory nineQuietState quietTx) quietTx.receiver).map
        Tx.value) = 0 := by
    rw [hh]
    unfold popVariance popMean
    simp [List.map_replicate, List.sum_replicate, nsmul_eq_mul]
    norm_num
  exact ⟨by omega, hvar,
    c5_zero_stddev_no_anomaly nineQuietState quietTx none 0 (by omega) hvar⟩

/-- C6: when the guarded body of `analyzeTransaction` raises (modelled as an
`Except.error`), the catch clause returns the degraded result: empty match
list, no anomaly, score 0 with level `unknown`, and a details string
carrying the error message.  `analyzeTransactionCaught` is a total
function, so the exception never reaches the caller. -/
theorem c6_degraded_result (tx : Tx) (now : Nat) (msg : String) :
    (analyzeTransactionCaught tx now (Except.error msg)).matchedPatterns = [] ∧
    (analyzeTransactionCaught tx now (Except.error msg)).isAnomaly = false ∧
    (analyzeTransactionCaught tx now (Except.error msg)).riskScore
        = { score := 0, level := RiskLevel.unknown } ∧
    (analyzeTransactionCaught tx now (Except.error msg)).details
        = "Error analyzing transaction: " ++ msg :=
  ⟨rfl, rfl, rfl, rfl⟩

/-- C7: per-address histories never exceed 1000 entries over any sequence
of `analyzeTransaction` calls from the initial empty map, and appending to
a full 1000-entry history evicts exactly the oldest entry: the new history
is the old one minus its head, plus the new transaction at the end, still
of length 1000. -/
theorem c7_history_bound :
    (∀ (calls : List (Tx × Option String)) (addr : String),
      (histOf (runAnalyzer calls) addr).length ≤ MAX_HISTORY_SIZE) ∧
    (∀ (st : HistoryState) (tx : Tx) (contractCode : Option String) (now : Nat),
      (histOf st tx.receiver).length = MAX_HISTORY_SIZE →
      histOf ((analyzeTransaction st tx contractCode now).2) tx.receiver
          = (histOf st tx.receiver).tail ++ [tx] ∧
      (histOf ((analyzeTransaction st tx contractCode now).2) tx.receiver).length
          = MAX_HISTORY_SIZE) := by
  constructor
  · exact runAnalyzer_historyBounded
  · intro st tx contractCode now hfull
    rw [snd_analyzeTransaction, histOf_updateTransactionHistory_self]
    have hgt : (histOf st tx.receiver ++ [tx]).length > MAX_HISTORY_SIZE := by
      simp only [List.length_append, List.length_singleton]
      omega
    rw [if_pos hgt]
    cases h : histOf st tx.receiver with
    | nil =>
      rw [h] at hfull
      simp [MAX_HISTORY_SIZE] at hfull
    | cons y ys =>
      rw [h] at hfull
      constructor
      · simp
      · simp at hfull ⊢
        omega

/-- C7 witness: appending a 1001st transaction to a full 1000-entry history
keeps the length at 1000 and shifts out the oldest entry. -/
theorem c7_history_bound_witness :
    (histOf fullQuietState quietTx.receiver).length = MAX_HISTORY_SIZE ∧
    histOf ((analyzeTransaction fullQuietState quietTx none 0).2) quietTx.receiver
        = (histOf fullQuietState quietTx.receiver).tail ++ [quietTx] := by
  have hrep : histOf fullQuietState quietTx.receiver = List.replicate 1000 quietTx := rfl
  have hlen : (histOf fullQuietState quietTx.receiver).length = MAX_HISTORY_SIZE := by
    rw [hrep, List.length_replicate]
    rfl
  exact ⟨hlen, (c7_history_bound.2 fullQuietState quietTx none 0 hlen).1⟩

/-- C8 counterexample: the claim's reading "at least 3 segments when split
at the `'@'` delimiter" flags a large-value payload `"a@b@c"` (3 segments),
but the source requires `data.split('@').length - 1 > 3`, i.e. more than 3
delimiter characters, so the code does not flag it. -/
theorem c8_counterexample :
    detectFlashLoanPattern threeSegmentTx none = false ∧
    claimedFlashLoanFlag threeSegmentTx = true := by
  refine ⟨by decide, by decide⟩

/-- C8 (amended): with no contract code, the flash-loan detector flags a
transaction iff its value strictly exceeds 10^20 AND (its payload contains
a flash-loan keyword, or more than 3 `'@'` delimiters — i.e. at least 5
`'@'`-separated segments —, or at least 3 distinct price/oracle keywords);
in particular the scenario-B transaction (value 2·10^20, payload
`"flashloanborrowswap@arbitrage@pool"`) is flagged. -/
theorem c8_flashloan_amended :
    (∀ tx : Tx,
      detectFlashLoanPattern tx none = true ↔
        (FLASH_LOAN_VALUE_THRESHOLD < tx.value ∧
          ((∃ k ∈ flashLoanKeywords, k.toList <:+: (strToLower tx.data).toList) ∨
           3 < tx.data.toList.count '@' ∨
           3 ≤ priceManipulationKeywords.countP
                 (fun k => decide (k.toList <:+: (strToLower tx.data).toList))))) ∧
    detectFlashLoanPattern scenarioBTx none = true := by
  constructor
  · intro tx
    unfold detectFlashLoanPattern
    simp only [Bool.and_eq_true, Bool.or_eq_true, decide_eq_true_eq,
      checkForFlashLoanKeywords_iff, checkForComplexData_iff,
      checkForPriceManipulation_iff]
    constructor
    · rintro ⟨h1, h2⟩
      exact ⟨h1, or_assoc.mp h2⟩
    · rintro ⟨h1, h2⟩
      exact ⟨h1, or_assoc.mpr h2⟩
  · decide

/-- C8 witness: the amended equivalence instantiated at the scenario-B
transaction. -/
theorem c8_flashloan_amended_witness :
    FLASH_LOAN_VALUE_THRESHOLD < scenarioBTx.value ∧
    ((∃ k ∈ flashLoanKeywords, k.toList <:+: (strToLower scenarioBTx.data).toList) ∨
     3 < scenarioBTx.data.toList.count '@' ∨
     3 ≤ priceManipulationKeywords.countP
           (fun k => decide (k.toList <:+: (strToLower scenarioBTx.data).toList))) :=
  (c8_flashloan_amended.1 scenarioBTx).mp c8_flashloan_amended.2

/-- C9: resolving an absent alert id returns `null` and leaves the store
untouched; resolving a present id returns and stores the alert with
`resolved := true` and the supplied notes, preserving the store's key list
(no duplicates); resolving again keeps `resolved = true`, overwrites the
notes, and still preserves the key list. -/
theorem c9_resolveAlert_behavior (store : AlertStore) (id : String)
    (notes₁ notes₂ : Option String) :
    (mapGet store id = none → resolveAlert store id notes₁ = (none, store)) ∧
    (∀ a : Alert, mapGet store id = some a →
      (resolveAlert store id notes₁).1
          = some { a with resolved := true, resolutionNotes := notes₁ } ∧
      mapGet (resolveAlert store id notes₁).2 id
          = some { a with resolved := true, resolutionNotes := notes₁ } ∧
      ((resolveAlert store id notes₁).2).map Prod.fst = store.map Prod.fst ∧
      (resolveAlert (resolveAlert store id notes₁).2 id notes₂).1
          = some { a with resolved := true, resolutionNotes := notes₂ } ∧
      ((resolveAlert (resolveAlert store id notes₁).2 id notes₂).2).map Prod.fst
          = store.map Prod.fst) := by
  constructor
  · intro h
    unfold resolveAlert
    rw [h]
  · intro a ha
    have h1 : resolveAlert store id notes₁
        = (some { a with resolved := true, resolutionNotes := notes₁ },
           mapSet store id { a with resolved := true, resolutionNotes := notes₁ }) := by
      unfold resolveAlert
      rw [ha]
    have hget1 : mapGet (mapSet store id
          { a with resolved := true, resolutionNotes := notes₁ }) id
        = some { a with resolved := true, resolutionNotes := notes₁ } :=
      mapGet_mapSet_self _ _ _
    have h2 : resolveAlert (mapSet store id
          { a with resolved := true, resolutionNotes := notes₁ }) id notes₂
        = (some { a with resolved := true, resolutionNotes := notes₂ },
           mapSet (mapSet store id { a with resolved := true, resolutionNotes := notes₁ })
             id { a with resolved := true, resolutionNotes := notes₂ }) := by
      unfold resolveAlert
      rw [hget1]
    refine ⟨by rw [h1], ?_, ?_, ?_, ?_⟩
    · rw [h1]
      exact hget1
    · rw [h1]
      exact keys_mapSet_of_get_eq_some store ha _
    · rw [h1, h2]
    · rw [h1, h2]
      calc (mapSet (mapSet store id { a with resolved := true, resolutionNotes := notes₁ })
              id { a with resolved := true, resolutionNotes := notes₂ }).map Prod.fst
          = (mapSet store id
              { a with resolved := true, resolutionNotes := notes₁ }).map Prod.fst :=
            keys_mapSet_of_get_eq_some _ hget1 _
        _ = store.map Prod.fst := keys_mapSet_of_get_eq_some store ha _

/-- C9 witness: resolving a missing id on the sample store is a no-op
returning `none`, and resolving the present id marks the alert resolved
with the supplied notes. -/
theorem c9_resolveAlert_behavior_witness :
    mapGet sampleAlertStore "does-not-exist" = none ∧
    resolveAlert sampleAlertStore "does-not-exist" none = (none, sampleAlertStore) ∧
    mapGet sampleAlertStore "alert-100-1" = some sampleAlert ∧
    (resolveAlert sampleAlertStore "alert-100-1" (some "fixed")).1
        = some { sampleAlert with resolved := true, resolutionNotes := some "fixed" } := by
  refine ⟨by decide, ?_, by decide, ?_⟩
  · exact (c9_resolveAlert_behavior sampleAlertStore "does-not-exist" none none).1
      (by decide)
  · exact ((c9_resolveAlert_behavior sampleAlertStore "alert-100-1"
      (some "fixed") none).2 sampleAlert (by decide)).1

/-- C10: adding the same address twice returns the very record created (or
found) by the first call, leaves the store of the first call unchanged, and
keeps the number of monitored contracts the same. -/
theorem c10_addContract_idempotent (store : ContractStore) (address : String)
    (name₁ name₂ : Option String) (now₁ now₂ : Nat) :
    (addContract (addContract store address name₁ now₁).2 address name₂ now₂).1
        = (addContract store address name₁ now₁).1 ∧
    (addContract (addContract store address name₁ now₁).2 address name₂ now₂).2
        = (addContract store address name₁ now₁).2 ∧
    ((addContract (addContract store address name₁ now₁).2 address name₂ now₂).2).length
        = ((addContract store address name₁ now₁).2).length := by
  have key := addContract_of_get_eq_some
    (addContract store address name₁ now₁).2 address name₂ now₂
    (mapGet_addContract store address name₁ now₁)
  exact ⟨by rw [key], by rw [key], by rw [key]⟩

end SentimentX
